import Mathlib

/-!
Shallow embedding of `moonraker/app.py` (web server request routing, argument
parsing, byte-range file serving and multipart upload handling) together with
proofs settling the specification claims about that file.

Python dictionaries are modelled as association lists with unique keys kept in
insertion order; Python exceptions are modelled with `Except`/`Option`; machine
strings are Lean `String`s (ASCII case folding and whitespace, which is all the
code relies on for header and hex-digest handling).
-/

namespace Moonraker

/-! ## Python dict primitives

`pyDictSet` models `d[k] = v`: an existing key keeps its position and gets the
new value, a new key is appended (insertion order).  `pyDictPop` models
`d.pop(k, None)` on the entry list; dict keys are unique, so filtering the key
removes exactly the popped entry.  `pyLookup` is `d.get(k)`. -/

def pyLookup {β : Type} : List (String × β) → String → Option β
  | [], _ => none
  | p :: rest, k => if p.1 = k then some p.2 else pyLookup rest k

def pyDictSet {β : Type} (d : List (String × β)) (k : String) (v : β) :
    List (String × β) :=
  if (pyLookup d k).isSome then
    d.map (fun p => if p.1 = k then (k, v) else p)
  else
    d ++ [(k, v)]

def pyDictPop {β : Type} (d : List (String × β)) (k : String) :
    List (String × β) :=
  d.filter (fun p => !decide (p.1 = k))

theorem pyLookup_pyDictSet_self {β : Type} (d : List (String × β)) (k : String)
    (v : β) : pyLookup (pyDictSet d k v) k = some v := by
  induction d with
  | nil => simp [pyDictSet, pyLookup]
  | cons p rest ih =>
    by_cases hp : p.1 = k
    · have hl : pyLookup (p :: rest) k = some p.2 := by simp [pyLookup, hp]
      simp [pyDictSet, hl, pyLookup, hp]
    · have hl : pyLookup (p :: rest) k = pyLookup rest k := by
        simp [pyLookup, hp]
      cases hrk : pyLookup rest k with
      | some w =>
        simp only [pyDictSet, hrk] at ih
        simp only [Option.isSome_some, if_true] at ih
        simp only [pyDictSet, hl, hrk, Option.isSome_some, if_true,
          List.map_cons, hp, if_false]
        simpa [pyLookup, hp] using ih
      | none =>
        simp only [pyDictSet, hrk] at ih
        simp only [Option.isSome_none, Bool.false_eq_true, if_false] at ih
        simp only [pyDictSet, hl, hrk, Option.isSome_none, Bool.false_eq_true,
          if_false, List.cons_append]
        simpa [pyLookup, hp] using ih

theorem map_set_eq_self {β : Type} (d : List (String × β)) (k : String) (v : β)
    (h : pyLookup d k = none) :
    d.map (fun p => if p.1 = k then (k, v) else p) = d := by
  induction d with
  | nil => rfl
  | cons p rest ih =>
    by_cases hp : p.1 = k
    · simp [pyLookup, hp] at h
    · simp only [pyLookup, hp, if_false] at h
      simp only [List.map_cons, hp, if_false]
      rw [ih h]

theorem pyLookup_pyDictSet_ne {β : Type} (d : List (String × β)) (k k' : String)
    (v : β) (h : k' ≠ k) : pyLookup (pyDictSet d k v) k' = pyLookup d k' := by
  induction d with
  | nil => simp [pyDictSet, pyLookup, Ne.symm h]
  | cons p rest ih =>
    by_cases hp : p.1 = k
    · have hl : pyLookup (p :: rest) k = some p.2 := by simp [pyLookup, hp]
      simp only [pyDictSet, hl, Option.isSome_some, if_true, List.map_cons,
        hp, if_true]
      have hpk' : ¬((k : String) = k') := Ne.symm h
      have hpk2 : ¬(p.1 = k') := by rw [hp]; exact Ne.symm h
      simp only [pyLookup, hpk', hpk2, if_false]
      cases hrk : pyLookup rest k with
      | some w =>
        simp only [pyDictSet, hrk, Option.isSome_some, if_true] at ih
        exact ih
      | none =>
        rw [map_set_eq_self rest k v hrk]
    · have hl : pyLookup (p :: rest) k = pyLookup rest k := by
        simp [pyLookup, hp]
      cases hrk : pyLookup rest k with
      | some w =>
        simp only [pyDictSet, hrk, Option.isSome_some, if_true] at ih
        simp only [pyDictSet, hl, hrk, Option.isSome_some, if_true,
          List.map_cons, hp, if_false]
        by_cases hp' : p.1 = k'
        · simp [pyLookup, hp']
        · simp only [pyLookup, hp', if_false]
          exact ih
      | none =>
        simp only [pyDictSet, hrk, Option.isSome_none, Bool.false_eq_true,
          if_false] at ih
        simp only [pyDictSet, hl, hrk, Option.isSome_none, Bool.false_eq_true,
          if_false, List.cons_append]
        by_cases hp' : p.1 = k'
        · simp [pyLookup, hp']
        · simp only [pyLookup, hp', if_false]
          exact ih

theorem pyLookup_pyDictPop_self {β : Type} (d : List (String × β)) (k : String) :
    pyLookup (pyDictPop d k) k = none := by
  induction d with
  | nil => rfl
  | cons p rest ih =>
    by_cases hp : p.1 = k
    · simpa [pyDictPop, List.filter_cons, hp] using ih
    · simp only [pyDictPop, List.filter_cons, hp, decide_False, Bool.not_false,
        if_true] at ih ⊢
      simpa [pyLookup, hp] using ih

/-! ## Module-level constants (`app.py` lines 55-65) -/

def RESERVED_ENDPOINTS : List String :=
  ["list_endpoints", "gcode/subscribe_output", "register_remote_method"]

def EXCLUDED_ARGS : List String := ["_", "token", "access_token", "connection_id"]

def ALL_TRANSPORTS : List String := ["http", "websocket", "mqtt"]

/-! ## String primitives

Structural (`List Char`) implementations of the Python `str` operations the
code uses, so that every definition evaluates by kernel reduction.  Case
folding and whitespace are ASCII, which covers everything the handlers feed
them (headers, hex digests, method names); Unicode-only divergences from
CPython are outside the model. -/

def isPySpace (c : Char) : Bool :=
  c = ' ' || c = '\t' || c = '\n' || c = '\r' || c = '\x0b' || c = '\x0c'

/-- Python `str.strip()` (also applied by tornado's `get_argument`). -/
def pyStrip (s : String) : String :=
  String.mk (((s.data.dropWhile isPySpace).reverse.dropWhile isPySpace).reverse)

def asciiLowerChar (c : Char) : Char :=
  if 'A' ≤ c ∧ c ≤ 'Z' then Char.ofNat (c.toNat + 32) else c

/-- Python `str.lower()` on ASCII. -/
def pyLower (s : String) : String := String.mk (s.data.map asciiLowerChar)

/-- Python `str.startswith(pre)`. -/
def strStartsWith (s pre : String) : Bool := pre.data.isPrefixOf s.data

/-- Python `str.replace(a, b)` for one-character patterns (the only shape the
code uses: `uri[1:].replace('/', '.')`). -/
def pyReplaceChar (s : String) (a b : Char) : String :=
  String.mk (s.data.map (fun c => if c = a then b else c))

def splitOnCharAux : List Char → Char → List Char → List String
  | [], _, acc => [String.mk acc.reverse]
  | c :: rest, sep, acc =>
    if c = sep then String.mk acc.reverse :: splitOnCharAux rest sep []
    else splitOnCharAux rest sep (c :: acc)

/-- Python `str.split(sep)` for one-character separators. -/
def pySplitChar (s : String) (sep : Char) : List String :=
  splitOnCharAux s.data sep []

/-- Python `sep.join(parts)`. -/
def strJoin (sep : String) : List String → String
  | [] => ""
  | [x] => x
  | x :: rest => x ++ sep ++ strJoin sep rest

/-- Python `s[1:]`. -/
def strDrop1 (s : String) : String := String.mk (s.data.drop 1)

/-! ## `str.rsplit(":", 1)`

`DynamicRequestHandler._default_parser` splits each query key at its *last*
colon.  `breakAtColonRev` walks the reversed character list up to the first
colon; `rsplitColon` packages it as (head, optional tail after the last colon),
mirroring the one- or two-element list `key.rsplit(":", 1)` returns. -/

def breakAtColonRev : List Char → List Char × Option (List Char)
  | [] => ([], none)
  | c :: rest =>
    if c = ':' then ([], some rest)
    else
      match breakAtColonRev rest with
      | (pre, r) => (c :: pre, r)

def rsplitColon (s : String) : String × Option String :=
  match breakAtColonRev s.data.reverse with
  | (_, none) => (s, none)
  | (suf, some pre) => (String.mk pre.reverse, some (String.mk suf.reverse))

theorem breakAtColonRev_no_colon (b : List Char) (a : List Char)
    (hb : ∀ c ∈ b, c ≠ ':') :
    breakAtColonRev (b ++ ':' :: a) = (b, some a) := by
  induction b with
  | nil => simp [breakAtColonRev]
  | cons c rest ih =>
    have hc : c ≠ ':' := hb c (List.mem_cons_self c rest)
    have ih2 := ih (fun x hx => hb x (List.mem_cons_of_mem c hx))
    simp [breakAtColonRev, hc, ih2]

theorem string_data_append (a b : String) : (a ++ b).data = a.data ++ b.data := rfl

theorem string_mk_data (s : String) : String.mk s.data = s := rfl

theorem rsplitColon_append (name hint : String)
    (hh : ∀ c ∈ hint.data, c ≠ ':') :
    rsplitColon (name ++ ":" ++ hint) = (name, some hint) := by
  unfold rsplitColon
  have hdata : (name ++ ":" ++ hint).data = name.data ++ ':' :: hint.data := by
    rw [string_data_append, string_data_append, List.append_assoc]
    rfl
  have hrev : (name ++ ":" ++ hint).data.reverse
      = hint.data.reverse ++ ':' :: name.data.reverse := by
    rw [hdata]
    simp
  rw [hrev, breakAtColonRev_no_colon _ _
    (fun c hc => hh c (List.mem_reverse.mp hc))]
  simp [string_mk_data]

/-! ## CPython numeric conversions

`remUnders` models the underscore rule of CPython numeric literals: every
underscore must be flanked by ASCII digits and is then discarded.  `pyInt`
models `int(str)` and `pyFloat` models `float(str)` on ASCII input (Unicode
digits and non-ASCII whitespace are outside the model). -/

def remUnders : Option Char → List Char → Option (List Char)
  | _, [] => some []
  | prev, c :: rest =>
    if c = '_' then
      match prev, rest with
      | some p, n :: _ =>
        if p.isDigit && n.isDigit then remUnders (some '_') rest else none
      | _, _ => none
    else
      (remUnders (some c) rest).map (fun l => c :: l)

def digitsToNat (cs : List Char) : Nat :=
  cs.foldl (fun acc c => acc * 10 + (c.toNat - '0'.toNat)) 0

def parseDigits (cs : List Char) : Option Nat :=
  if cs ≠ [] ∧ cs.all Char.isDigit then some (digitsToNat cs) else none

def pyInt (s : String) : Option Int :=
  match remUnders none (pyStrip s).data with
  | none => none
  | some cs =>
    match cs with
    | '+' :: ds => (parseDigits ds).map (fun n => (n : Int))
    | '-' :: ds => (parseDigits ds).map (fun n => -(n : Int))
    | ds => (parseDigits ds).map (fun n => (n : Int))

/-- IEEE doubles are modelled symbolically: a finite value carries the exact
decimal rational (binary rounding is not modelled), plus infinities and NaN,
which `float(str)` can produce from `inf`/`infinity`/`nan` spellings. -/
inductive PyFloat where
  | finite (q : Rat)
  | inf (neg : Bool)
  | nan
deriving DecidableEq

def decToRat (neg : Bool) (ip fp : List Char) (expNeg : Bool) (ex : Nat) : Rat :=
  let mant : Int := (digitsToNat (ip ++ fp) : Int)
  let mant : Int := if neg then -mant else mant
  let base : Rat := (mant : Rat) / ((10 : Rat) ^ fp.length)
  if expNeg then base / ((10 : Rat) ^ ex) else base * ((10 : Rat) ^ ex)

def parseExpPart (cs : List Char) : Option (Bool × Nat) :=
  match cs with
  | [] => some (false, 0)
  | 'e' :: rest | 'E' :: rest =>
    match rest with
    | '+' :: ds => (parseDigits ds).map (fun n => (false, n))
    | '-' :: ds => (parseDigits ds).map (fun n => (true, n))
    | ds => (parseDigits ds).map (fun n => (false, n))
  | _ => none

def parseDecimal (neg : Bool) (cs : List Char) : Option Rat :=
  let ip := cs.takeWhile Char.isDigit
  let rest1 := cs.dropWhile Char.isDigit
  match rest1 with
  | '.' :: rest2 =>
    let fp := rest2.takeWhile Char.isDigit
    let rest3 := rest2.dropWhile Char.isDigit
    if ip = [] ∧ fp = [] then none
    else (parseExpPart rest3).map (fun p => decToRat neg ip fp p.1 p.2)
  | _ =>
    if ip = [] then none
    else (parseExpPart rest1).map (fun p => decToRat neg ip [] p.1 p.2)

def pyFloatCore (neg : Bool) (cs : List Char) : Option PyFloat :=
  let w := pyLower (String.mk cs)
  if w = "inf" ∨ w = "infinity" then some (.inf neg)
  else if w = "nan" then some .nan
  else (parseDecimal neg cs).map .finite

def pyFloat (s : String) : Option PyFloat :=
  match remUnders none (pyStrip s).data with
  | none => none
  | some cs =>
    match cs with
    | '+' :: rest => pyFloatCore false rest
    | '-' :: rest => pyFloatCore true rest
    | rest => pyFloatCore false rest

/-! ## Python values and `json.loads`

`PyVal` covers the Python values the dispatcher passes around: strings,
ints, floats, bools, `None`, lists and string-keyed dicts (the shapes
`json.loads` and the query-argument converters produce). -/

inductive PyVal where
  | str (s : String)
  | int (n : Int)
  | float (f : PyFloat)
  | bool (b : Bool)
  | none
  | list (xs : List PyVal)
  | dict (d : List (String × PyVal))

/-- JSON insignificant whitespace (also what CPython `json` skips). -/
def jsonSkipWs : List Char → List Char
  | [] => []
  | c :: rest =>
    if c = ' ' ∨ c = '\t' ∨ c = '\n' ∨ c = '\r' then jsonSkipWs rest
    else c :: rest

def hexVal (c : Char) : Option Nat :=
  if '0' ≤ c ∧ c ≤ '9' then some (c.toNat - '0'.toNat)
  else if 'a' ≤ c ∧ c ≤ 'f' then some (c.toNat - 'a'.toNat + 10)
  else if 'A' ≤ c ∧ c ≤ 'F' then some (c.toNat - 'A'.toNat + 10)
  else none

def hex4 (a b c d : Char) : Option Nat :=
  match hexVal a, hexVal b, hexVal c, hexVal d with
  | some x, some y, some z, some w => some (((x * 16 + y) * 16 + z) * 16 + w)
  | _, _, _, _ => none

/-- JSON string body after the opening quote.  Strict mode: raw control
characters are rejected.  Each `\uXXXX` escape decodes independently through
`Char.ofNat` (surrogate-pair recombination for astral-plane characters is
outside the model; no claim exercises it). -/
def parseJString : List Char → Option (List Char × List Char)
  | [] => Option.none
  | '"' :: rest => some ([], rest)
  | '\\' :: esc =>
    match esc with
    | '"' :: rest => (parseJString rest).map (fun p => ('"' :: p.1, p.2))
    | '\\' :: rest => (parseJString rest).map (fun p => ('\\' :: p.1, p.2))
    | '/' :: rest => (parseJString rest).map (fun p => ('/' :: p.1, p.2))
    | 'b' :: rest => (parseJString rest).map (fun p => ('\x08' :: p.1, p.2))
    | 'f' :: rest => (parseJString rest).map (fun p => ('\x0C' :: p.1, p.2))
    | 'n' :: rest => (parseJString rest).map (fun p => ('\n' :: p.1, p.2))
    | 'r' :: rest => (parseJString rest).map (fun p => ('\r' :: p.1, p.2))
    | 't' :: rest => (parseJString rest).map (fun p => ('\t' :: p.1, p.2))
    | 'u' :: a :: b :: c :: d :: rest =>
      match hex4 a b c d with
      | Option.none => Option.none
      | some hi =>
        (parseJString rest).map (fun p => (Char.ofNat hi :: p.1, p.2))
    | _ => Option.none
  | c :: rest =>
    if c.toNat < 0x20 then Option.none
    else (parseJString rest).map (fun p => (c :: p.1, p.2))

/-- JSON number, per RFC 8259 plus the CPython extensions `Infinity`,
`-Infinity` and `NaN`.  A plain integer literal becomes a Python `int`;
a fraction or exponent makes it a `float`. -/
def parseJNumber (cs : List Char) : Option (PyVal × List Char) :=
  let (neg, cs1) :=
    match cs with
    | '-' :: rest => (true, rest)
    | _ => (false, cs)
  match cs1 with
  | 'I' :: 'n' :: 'f' :: 'i' :: 'n' :: 'i' :: 't' :: 'y' :: rest =>
    some (.float (.inf neg), rest)
  | _ =>
    let ip := cs1.takeWhile Char.isDigit
    let rest1 := cs1.dropWhile Char.isDigit
    if ip = [] then Option.none
    else if ip.head? = some '0' ∧ ip.length ≠ 1 then Option.none
    else
      let (fp, rest2) :=
        match rest1 with
        | '.' :: r =>
          (r.takeWhile Char.isDigit, r.dropWhile Char.isDigit)
        | _ => ([], rest1)
      if rest1.head? = some '.' ∧ fp = [] then Option.none
      else
        let (hasExp, expNeg, ed, rest3) :=
          match rest2 with
          | 'e' :: '+' :: r => (true, false, r.takeWhile Char.isDigit, r.dropWhile Char.isDigit)
          | 'e' :: '-' :: r => (true, true, r.takeWhile Char.isDigit, r.dropWhile Char.isDigit)
          | 'e' :: r => (true, false, r.takeWhile Char.isDigit, r.dropWhile Char.isDigit)
          | 'E' :: '+' :: r => (true, false, r.takeWhile Char.isDigit, r.dropWhile Char.isDigit)
          | 'E' :: '-' :: r => (true, true, r.takeWhile Char.isDigit, r.dropWhile Char.isDigit)
          | 'E' :: r => (true, false, r.takeWhile Char.isDigit, r.dropWhile Char.isDigit)
          | _ => (false, false, [], rest2)
        if hasExp ∧ ed = [] then Option.none
        else if ¬hasExp ∧ rest1.head? ≠ some '.' then
          let n : Int := (digitsToNat ip : Int)
          some (.int (if neg then -n else n), rest2)
        else
          some (.float (.finite (decToRat neg ip fp expNeg (digitsToNat ed))), rest3)

mutual

/-- One JSON value, fuel-bounded recursive descent (`json.loads` grammar). -/
def jsonParseVal : Nat → List Char → Option (PyVal × List Char)
  | 0, _ => Option.none
  | fuel + 1, cs =>
    match jsonSkipWs cs with
    | 'n' :: 'u' :: 'l' :: 'l' :: rest => some (.none, rest)
    | 't' :: 'r' :: 'u' :: 'e' :: rest => some (.bool true, rest)
    | 'f' :: 'a' :: 'l' :: 's' :: 'e' :: rest => some (.bool false, rest)
    | 'N' :: 'a' :: 'N' :: rest => some (.float .nan, rest)
    | '"' :: rest =>
      (parseJString rest).map (fun p => (.str (String.mk p.1), p.2))
    | '[' :: rest =>
      match jsonSkipWs rest with
      | ']' :: r => some (.list [], r)
      | cs2 => jsonParseArrItems fuel cs2 []
    | '{' :: rest =>
      match jsonSkipWs rest with
      | '}' :: r => some (.dict [], r)
      | cs2 => jsonParseObjItems fuel cs2 []
    | cs' => parseJNumber cs'

def jsonParseArrItems : Nat → List Char → List PyVal → Option (PyVal × List Char)
  | 0, _, _ => Option.none
  | fuel + 1, cs, acc =>
    match jsonParseVal fuel cs with
    | some (v, rest) =>
      match jsonSkipWs rest with
      | ',' :: r2 => jsonParseArrItems fuel r2 (acc ++ [v])
      | ']' :: r2 => some (.list (acc ++ [v]), r2)
      | _ => Option.none
    | Option.none => Option.none

def jsonParseObjItems : Nat → List Char → List (String × PyVal) →
    Option (PyVal × List Char)
  | 0, _, _ => Option.none
  | fuel + 1, cs, acc =>
    match jsonSkipWs cs with
    | '"' :: rest =>
      match parseJString rest with
      | some (kcs, r1) =>
        match jsonSkipWs r1 with
        | ':' :: r2 =>
          match jsonParseVal fuel r2 with
          | some (v, r3) =>
            let acc2 := pyDictSet acc (String.mk kcs) v
            match jsonSkipWs r3 with
            | ',' :: r4 => jsonParseObjItems fuel r4 acc2
            | '}' :: r4 => some (.dict acc2, r4)
            | _ => Option.none
          | Option.none => Option.none
        | _ => Option.none
      | Option.none => Option.none
    | _ => Option.none

end

/-- `json.loads`: parse one JSON document, rejecting trailing garbage. -/
def jsonLoads (s : String) : Option PyVal :=
  match jsonParseVal (s.length + 1) s.data with
  | some (v, rest) => if jsonSkipWs rest = [] then some v else Option.none
  | Option.none => Option.none

/-! ## `DynamicRequestHandler` argument parsing (`app.py` lines 484-543)

The tornado `request.arguments` dict is modelled as an association list that
maps each decoded query/body key to the final value `get_argument` selects for
it (the last of the raw value list); `get_argument` additionally strips
surrounding whitespace, which the embedding applies via `pyStrip` where the
handler calls it. -/

/-- The `type_funcs` hint table of `_convert_type`: `int`, `float`, `bool`
(lower-cased comparison against `"true"`, never failing) and `json`. -/
def typeFuncs : String → Option (String → Option PyVal)
  | "int" => some (fun v => (pyInt v).map .int)
  | "float" => some (fun v => (pyFloat v).map .float)
  | "bool" => some (fun v => some (.bool (pyLower v == "true")))
  | "json" => some jsonLoads
  | _ => Option.none

/-- `_convert_type`: unknown hints and converter failures fall back to the
original string value (the exception is logged and swallowed). -/
def convertType (value : String) (hint : String) : PyVal :=
  match typeFuncs hint with
  | Option.none => .str value
  | some f =>
    match f value with
    | some converted => converted
    | Option.none => .str value

/-- One entry of `_default_parser`'s loop: drop reserved keys, split the key
at its last colon, convert the (stripped) value with a recognised hint, keep
plain values as strings. -/
def defaultParserStep (acc : List (String × PyVal)) (kv : String × String) :
    List (String × PyVal) :=
  if kv.1 ∈ EXCLUDED_ARGS then acc
  else
    let val := pyStrip kv.2
    match rsplitColon kv.1 with
    | (_, Option.none) => pyDictSet acc kv.1 (.str val)
    | (name, some hint) => pyDictSet acc name (convertType val hint)

/-- `_default_parser`: the loop over `request.arguments`. -/
def defaultParser (args : List (String × String)) : List (String × PyVal) :=
  args.foldl defaultParserStep []

/-- `_object_parser`: drop reserved keys, map an empty value to Python `None`
(the subscription sentinel standing for the empty field list) and a non-empty
value to the list of its comma-separated parts, then nest everything under the
single key `"objects"`. -/
def objectParserStep (acc : List (String × PyVal)) (kv : String × String) :
    List (String × PyVal) :=
  if kv.1 ∈ EXCLUDED_ARGS then acc
  else
    let val := pyStrip kv.2
    if val = "" then pyDictSet acc kv.1 .none
    else pyDictSet acc kv.1 (.list ((pySplitChar val ',').map .str))

def objectParser (args : List (String × String)) : List (String × PyVal) :=
  [("objects", .dict (args.foldl objectParserStep []))]

/-! ### Heterogeneous dicts and `dict.update`

`parse_args` applies `args.update(json.loads(body))` to the query-derived
dict.  CPython's `dict.update` accepts, besides a mapping, any iterable of
key/value pairs — a list of two-item lists, two-character strings (their
characters), two-key dicts (their keys), and the empty string as an empty
iterable — and raises TypeError/ValueError for everything else; the inserted
keys need not be strings.  Keys are therefore modelled by `PyKey` with
Python's cross-type equality (`True == 1 == 1.0`), and an update of an
existing entry keeps its original key object, as CPython does.  NaN keys
compare unequal here (CPython falls back to object identity, which the model
does not track; no claim exercises NaN keys). -/

inductive PyKey where
  | str (s : String)
  | int (n : Int)
  | float (f : PyFloat)
  | bool (b : Bool)
  | none
deriving DecidableEq

/-- Numeric value of a key, for Python's cross-type numeric equality. -/
def pyKeyNum : PyKey → Option Rat
  | .int n => some (n : Rat)
  | .bool b => some (if b then 1 else 0)
  | .float (.finite q) => some q
  | _ => Option.none

/-- Python `==` on the hashable values a JSON document can produce. -/
def pyKeyEq (a b : PyKey) : Bool :=
  match a, b with
  | .str x, .str y => x == y
  | .none, .none => true
  | .float (.inf x), .float (.inf y) => x == y
  | x, y =>
    match pyKeyNum x, pyKeyNum y with
    | some q, some r => q == r
    | _, _ => false

def pyObjLookup : List (PyKey × PyVal) → PyKey → Option PyVal
  | [], _ => Option.none
  | p :: rest, k => if pyKeyEq p.1 k then some p.2 else pyObjLookup rest k

/-- `d[k] = v` on a heterogeneous dict: an existing equal key keeps its
original key object and position, a new key is appended. -/
def pyObjSet (d : List (PyKey × PyVal)) (k : PyKey) (v : PyVal) :
    List (PyKey × PyVal) :=
  if d.any (fun p => pyKeyEq p.1 k) then
    d.map (fun p => if pyKeyEq p.1 k then (p.1, v) else p)
  else
    d ++ [(k, v)]

/-- Hashable JSON values may serve as dict keys; lists and dicts cannot. -/
def keyOfVal : PyVal → Option PyKey
  | .str s => some (.str s)
  | .int n => some (.int n)
  | .float f => some (.float f)
  | .bool b => some (.bool b)
  | .none => some .none
  | _ => Option.none

/-- One element of `dict.update(sequence)`: an iterable of exactly two items
whose first item is hashable — a two-item list, a two-character string, or a
two-key dict (iterating a dict yields its keys).  Anything else raises an
uncaught TypeError/ValueError. -/
def elemToPair : PyVal → Except Unit (PyKey × PyVal)
  | .list [kv, vv] =>
    (match keyOfVal kv with
     | some pk => .ok (pk, vv)
     | Option.none => .error ())
  | .list _ => .error ()
  | .str s =>
    (match s.data with
     | [a, b] => .ok (.str (String.mk [a]), .str (String.mk [b]))
     | _ => .error ())
  | .dict d =>
    (match d with
     | [p, q] => .ok (.str p.1, .str q.1)
     | _ => .error ())
  | _ => .error ()

/-- The element loop of `dict.update(sequence)`: the first bad element
raises; the pairs before it have already been inserted (irrelevant here
because the exception propagates out of `parse_args`). -/
def updListFold : List PyVal → List (PyKey × PyVal) →
    Except Unit (List (PyKey × PyVal))
  | [], acc => .ok acc
  | e :: rest, acc =>
    match elemToPair e with
    | .ok pv => updListFold rest (pyObjSet acc pv.1 pv.2)
    | .error u => .error u

/-- One step of `args.update` over a parsed JSON object's entries. -/
def jsonMergeStep (acc : List (PyKey × PyVal)) (p : String × PyVal) :
    List (PyKey × PyVal) :=
  pyObjSet acc (.str p.1) p.2

/-- `args.update(v)` for a JSON-decoded `v`: a mapping merges its pairs, a
sequence merges element-wise pairs, the empty string is an empty iterable
(a no-op), and every other value raises an uncaught TypeError/ValueError. -/
def pyDictUpdate (acc : List (PyKey × PyVal)) (v : PyVal) :
    Except Unit (List (PyKey × PyVal)) :=
  match v with
  | .dict d => .ok (d.foldl jsonMergeStep acc)
  | .list xs => updListFold xs acc
  | .str s => if s = "" then .ok acc else .error ()
  | _ => .error ()

/-- The query-derived string-keyed dict viewed as a heterogeneous dict. -/
def pyObjOfStr (d : List (String × PyVal)) : List (PyKey × PyVal) :=
  d.map (fun p => (PyKey.str p.1, p.2))

/-- One step of the `path_kwargs` override loop (a `None` capture is
skipped). -/
def pathKwargStep (acc : List (PyKey × PyVal)) (p : String × Option String) :
    List (PyKey × PyVal) :=
  match p.2 with
  | some v => pyObjSet acc (.str p.1) (.str v)
  | Option.none => acc

/-- `parse_args`: query parsing per the route's mode, then
`args.update(json.loads(body))` when the content type says
`application/json` (decode errors silently ignored; the update itself can
raise on a malformed non-mapping body, which the handler does not catch),
then path-captured parameters override everything.  The `objMode` flag is
the `need_object_parser` choice fixed at registration (field
`need_object_parse` here). -/
def parseArgs (objMode : Bool) (qargs : List (String × String))
    (contentTypeHdr : Option String) (body : String)
    (pathKwargs : List (String × Option String)) :
    Except Unit (List (PyKey × PyVal)) :=
  let args := pyObjOfStr (if objMode then objectParser qargs
                          else defaultParser qargs)
  let ct := pyStrip (contentTypeHdr.getD "")
  let merged : Except Unit (List (PyKey × PyVal)) :=
    if strStartsWith ct "application/json" then
      match jsonLoads body with
      | some v => pyDictUpdate args v
      | Option.none => .ok args
    else .ok args
  match merged with
  | .ok args2 => .ok (pathKwargs.foldl pathKwargStep args2)
  | .error e => .error e

/-! ## `MutableRouter` (`app.py` lines 67-105)

A rule's tornado handler class and its `target_params` dict do not influence
any routing decision the claims are about, so they are abstracted as plain
numeric tokens.  `rules` is the ordered rule list of the underlying
`RuleRouter`; `pattern_to_rule` is the index dict.  `list.remove` removes the
first occurrence equal to the given rule; a failing removal (rule absent) is
logged and swallowed, which `List.eraseP` reproduces by leaving the list
unchanged. -/

structure Rule where
  pattern : String
  target : Nat
  params : Nat
deriving DecidableEq

structure MRState where
  pattern_to_rule : List (String × Rule)
  rules : List Rule
deriving DecidableEq

def MRState.hasRule (s : MRState) (pattern : String) : Bool :=
  (pyLookup s.pattern_to_rule pattern).isSome

/-- `MutableRouter.remove_handler`: pop the index entry first; only when it
existed, remove that rule object from the rule list. -/
def MRState.removeHandler (s : MRState) (pattern : String) : MRState :=
  match pyLookup s.pattern_to_rule pattern with
  | Option.none => s
  | some r =>
    { pattern_to_rule := pyDictPop s.pattern_to_rule pattern,
      rules := s.rules.eraseP (fun r2 => r2 == r) }

/-- `MutableRouter.add_handler`: an existing pattern is removed before the new
rule is appended to both the index and the rule list. -/
def MRState.addHandler (s : MRState) (pattern : String) (target params : Nat) :
    MRState :=
  let s1 := if (pyLookup s.pattern_to_rule pattern).isSome
            then s.removeHandler pattern else s
  let newRule : Rule := ⟨pattern, target, params⟩
  { pattern_to_rule := pyDictSet s1.pattern_to_rule pattern newRule,
    rules := s1.rules ++ [newRule] }

/-- A lookup that matches the given pattern resolves to the first rule in
table order whose pattern it is (tornado's `RuleRouter` tries rules in table
order, first match wins). -/
def MRState.findRule (s : MRState) (pattern : String) : Option Rule :=
  s.rules.find? (fun r => r.pattern == pattern)

/-- Consistency of the router state: patterns are unique in the rule list,
the index maps each pattern to its unique rule, and every listed rule is
indexed.  Holds for the empty router and is preserved by both mutators. -/
def MRInv (s : MRState) : Prop :=
  (s.rules.map Rule.pattern).Nodup ∧
  (∀ pr ∈ s.pattern_to_rule, pr.2.pattern = pr.1 ∧ pr.2 ∈ s.rules) ∧
  (∀ r ∈ s.rules, pyLookup s.pattern_to_rule r.pattern = some r)

instance (s : MRState) : Decidable (MRInv s) := by
  unfold MRInv
  infer_instance

/-! ## API registry (`app.py` lines 107-365)

`APIDefinition` mirrors the Python class; the callback is a token
(`Option Nat`): `none` is the remote marker, `some id` a bound local
callback.  `AppState` carries the `MoonrakerApp` fields the claims touch;
`transports` is the `api_transports` key list in insertion order.
Adapter notifications are returned as an event list. -/

structure APIDefinition where
  endpoint : String
  uri : String
  jrpc_methods : List String
  request_methods : List String
  supported_transports : List String
  callback : Option Nat
  need_object_parse : Bool
deriving DecidableEq

structure AppState where
  api_cache : List (String × APIDefinition)
  registered_base_handlers : List String
  router : MRState
  transports : List String
deriving DecidableEq

/-- Token standing for the `DynamicRequestHandler` class passed as the rule
target (no claim inspects the target beyond identity). -/
def dynamicHandlerTarget : Nat := 0

/-- `MoonrakerApp._create_api_definition`.  A cached endpoint is returned
as-is.  The websocket-method count check can only fail for a local
definition (remote definitions force `['GET', 'POST']` and a single method
name); failure raises a `ServerError`, modelled as `Except.error`. -/
def createAPIDefinition (s : AppState) (endpoint : String)
    (request_methods : List String) (callback : Option Nat)
    (transports : List String) :
    Except String (APIDefinition × AppState) :=
  let is_remote := callback.isNone
  match pyLookup s.api_cache endpoint with
  | some d => .ok (d, s)
  | Option.none =>
    let uri :=
      if strStartsWith endpoint "/" then endpoint
      else if is_remote then "/printer/" ++ endpoint
      else "/server/" ++ endpoint
    let (jrpc_methods, req_methods) :=
      if is_remote then
        ([pyReplaceChar (strDrop1 uri) '/' '.'], ["GET", "POST"])
      else
        let name_parts := pySplitChar (strDrop1 uri) '/'
        if request_methods.length > 1 then
          (request_methods.map (fun m =>
            strJoin "."
              (name_parts.dropLast ++ [pyLower m ++ "_" ++ name_parts.getLastD ""])),
           request_methods)
        else
          ([strJoin "." name_parts], request_methods)
    if ¬is_remote ∧ req_methods.length ≠ jrpc_methods.length then
      .error "Invalid API definition.  Number of websocket methods must match the number of request methods"
    else
      let api_def : APIDefinition :=
        ⟨endpoint, uri, jrpc_methods, req_methods, transports, callback,
         strStartsWith endpoint "objects/"⟩
      .ok (api_def, { s with api_cache := s.api_cache ++ [(endpoint, api_def)] })

/-- `MoonrakerApp.register_remote_handler`: reserved endpoints are silently
skipped; a duplicate uri returns after `_create_api_definition` already ran;
otherwise the route rule is installed, the uri recorded, and every transport
adapter notified. -/
def registerRemoteHandler (s : AppState) (endpoint : String) :
    Except String (AppState × List (String × APIDefinition)) :=
  if endpoint ∈ RESERVED_ENDPOINTS then .ok (s, [])
  else
    match createAPIDefinition s endpoint [] Option.none ALL_TRANSPORTS with
    | .error e => .error e
    | .ok (api_def, s1) =>
      if api_def.uri ∈ s1.registered_base_handlers then .ok (s1, [])
      else
        let s2 : AppState :=
          { s1 with
            router := s1.router.addHandler api_def.uri dynamicHandlerTarget 0,
            registered_base_handlers :=
              s1.registered_base_handlers ++ [api_def.uri] }
        .ok (s2, s2.transports.map (fun n => (n, api_def)))

/-- `MoonrakerApp.register_local_handler`: a duplicate uri returns before
anything is created; otherwise the definition is built, the route installed
when `"http"` is among the transports, and exactly the adapters named in
`transports` are notified, in registration order. -/
def registerLocalHandler (s : AppState) (uri : String)
    (request_methods : List String) (callback : Nat)
    (transports : List String) :
    Except String (AppState × List (String × APIDefinition)) :=
  if uri ∈ s.registered_base_handlers then .ok (s, [])
  else
    match createAPIDefinition s uri request_methods (some callback) transports with
    | .error e => .error e
    | .ok (api_def, s1) =>
      let s2 : AppState :=
        if "http" ∈ transports then
          { s1 with router := s1.router.addHandler uri dynamicHandlerTarget 0 }
        else s1
      let s3 : AppState :=
        { s2 with registered_base_handlers :=
            s2.registered_base_handlers ++ [uri] }
      .ok (s3, (s3.transports.filter (fun n => transports.contains n)).map
            (fun n => (n, api_def)))

/-- Run the `transport.remove_api_handler(api_def)` loop: each adapter's hook
outcome is supplied as a function; a raised exception propagates at once, so
later adapters are not reached.  Returns the adapters invoked, in order, and
the propagated error if any. -/
def runRemovalHooks (hooks : String → APIDefinition → Except Nat Unit)
    (d : APIDefinition) : List String → List String × Option Nat
  | [] => ([], Option.none)
  | t :: rest =>
    match hooks t d with
    | .ok _ =>
      let (inv, e) := runRemovalHooks hooks d rest
      (t :: inv, e)
    | .error c => ([t], some c)

/-- `MoonrakerApp.remove_handler`: pop from the api cache; when present,
remove the route rule and then notify the adapters. -/
def removeAppHandler (s : AppState) (endpoint : String)
    (hooks : String → APIDefinition → Except Nat Unit) :
    AppState × List String × Option Nat :=
  match pyLookup s.api_cache endpoint with
  | Option.none => (s, [], Option.none)
  | some d =>
    let s1 : AppState :=
      { s with api_cache := pyDictPop s.api_cache endpoint,
               router := s.router.removeHandler d.uri }
    let (inv, e) := runRemovalHooks hooks d s.transports
    (s1, inv, e)

/-! ## `FileRequestHandler.get` range handling (`app.py` lines 644-698)

The function models the body of `get` from the point where path validation
and the conditional-request (304) check have passed.  `tornado.httputil`'s
`_parse_request_range` and `_get_content_range` are embedded from the tornado
sources the handler calls into. -/

/-- `tornado.httputil._int_or_none`: strip, empty means absent, otherwise
`int(val)` whose `ValueError` invalidates the whole header. -/
def intOrNone (s : String) : Option (Option Int) :=
  let t := pyStrip s
  if t = "" then some Option.none
  else (pyInt t).map some

/-- `str.partition(sep)` at a single-character separator: (head, found, tail). -/
def breakAtChar : List Char → Char → Option (List Char × List Char)
  | [], _ => Option.none
  | c :: rest, sep =>
    if c = sep then some ([], rest)
    else (breakAtChar rest sep).map (fun p => (c :: p.1, p.2))

def pyPartition (s : String) (sep : Char) : String × Bool × String :=
  match breakAtChar s.data sep with
  | some (a, b) => (String.mk a, true, String.mk b)
  | Option.none => (s, false, "")

/-- `tornado.httputil._parse_request_range`: returns `(start, end)` with an
exclusive end, `None` components allowed; a suffix length `n` becomes
`(-n, None)` except that `bytes=-0` stays `(None, 0)`. -/
def parseRequestRange (rangeHeader : String) : Option (Option Int × Option Int) :=
  let (unitRaw, _, valueRaw) := pyPartition rangeHeader '='
  let unitStr := pyStrip unitRaw
  let value := pyStrip valueRaw
  if unitStr ≠ "bytes" then Option.none
  else
    let (sb, _, eb) := pyPartition value '-'
    match intOrNone sb, intOrNone eb with
    | some s, some e =>
      match e with
      | Option.none => some (s, Option.none)
      | some ev =>
        match s with
        | Option.none =>
          if ev ≠ 0 then some (some (-ev), Option.none)
          else some (Option.none, some 0)
        | some sv => some (some sv, some (ev + 1))
    | _, _ => Option.none

/-- `tornado.httputil._get_content_range` (Python `or` treats 0 as falsy in
the `end or total` position). -/
def getContentRangeHdr (start endO : Option Int) (total : Nat) : String :=
  let s := start.getD 0
  let e := (match endO with
    | Option.none => (total : Int)
    | some v => if v = 0 then (total : Int) else v) - 1
  "bytes " ++ toString s ++ "-" ++ toString e ++ "/" ++ toString total

/-- Outcome of the modelled `get`: response status, the `Content-Range`
header when set, the `Content-Length` header when reached, and the byte span
handed to `get_content_nonblock` (`none` when the handler returns without a
body, as in the 416 path). -/
structure RangeResult where
  status : Nat
  contentRange : Option String
  contentLength : Option Int
  body : Option (Int × Int)
deriving DecidableEq

/-- The negative-start adjustment: `start += size`, clamped at zero. -/
def adjustStart (s0 : Option Int) (size : Nat) : Option Int :=
  match s0 with
  | some v => if v < 0 then (if v + size < 0 then some 0 else some (v + size)) else some v
  | Option.none => Option.none

/-- Shared tail of `get`: the content-length computation and body span for
the (possibly absent) final `start`/`end` values. -/
def finishRange (size : Nat) (start endv : Option Int) (status : Nat)
    (contentRange : Option String) : RangeResult :=
  let (endF, clen) : Int × Int :=
    match start, endv with
    | some sv, some ev => (ev, ev - sv)
    | Option.none, some ev => (ev, ev)
    | some sv, Option.none => ((size : Int), (size : Int) - sv)
    | Option.none, Option.none => ((size : Int), (size : Int))
  { status := status, contentRange := contentRange,
    contentLength := some clen, body := some (start.getD 0, endF) }

/-- `FileRequestHandler.get` from the `Range` evaluation onward, on a file of
`size` bytes, given the already-parsed range tuple. -/
def fileGetRange (size : Nat) (request_range : Option (Option Int × Option Int)) :
    RangeResult :=
  match request_range with
  | Option.none => finishRange size Option.none Option.none 200 Option.none
  | some (s0, e0) =>
    let start := adjustStart s0 size
    if ((match start with
         | some sv => decide (sv ≥ (size : Int)) ||
             (match e0 with
              | some ev => decide (sv ≥ ev)
              | Option.none => false)
         | Option.none => false) || (e0 == some 0)) = true then
      { status := 416, contentRange := some ("bytes */" ++ toString size),
        contentLength := Option.none, body := Option.none }
    else
      let endv : Option Int :=
        match e0 with
        | some ev => if ev > (size : Int) then some (size : Int) else some ev
        | Option.none => Option.none
      let full : Int := (match endv with
        | Option.none => (size : Int)
        | some v => if v = 0 then (size : Int) else v) - start.getD 0
      if (size : Int) ≠ full then
        finishRange size start endv 206 (some (getContentRangeHdr start endv size))
      else
        finishRange size start endv 200 Option.none

/-- `get` including the header handling: an absent or empty `Range` header is
no range; an invalid one parses to `None` and is ignored. -/
def fileGet (size : Nat) (rangeHeader : Option String) : RangeResult :=
  fileGetRange size
    (match rangeHeader with
     | some h => if h ≠ "" then parseRequestRange h else Option.none
     | Option.none => Option.none)

/-! ## `FileUploadHandler.post` (`app.py` lines 786-817)

Inputs are the multipart targets as the streaming parser left them: the
scalar field values (empty string when the part was absent or empty, matching
the Python truthiness checks), the hex digest of the streamed file part, and
the temporary path.  `finalize_upload` is the external collaborator, supplied
as a function that may fail with a declared status code and message.
`os.remove` of the temporary file is modelled as the deletion succeeding (the
`except` around it swallows filesystem errors). -/

structure UploadInput where
  checksumValue : String
  sha256Hex : String
  rootValue : String
  printValue : String
  pathValue : String
  multipartFilename : String
  tmpFilePath : String

inductive UploadOutcome where
  | ok (result : Nat)
  | err (status : Nat) (message : String)
deriving DecidableEq

structure UploadResult where
  outcome : UploadOutcome
  tempDeleted : Bool
  finalizeCalled : Bool
deriving DecidableEq

/-- The `form_args` dict handed to `finalize_upload`: the scalar fields that
were non-empty, then the original filename and the temporary path. -/
def uploadFormArgs (inp : UploadInput) : List (String × String) :=
  ((([] : List (String × String))
    ++ (if inp.rootValue ≠ "" then [("root", inp.rootValue)] else [])
    ++ (if inp.printValue ≠ "" then [("print", inp.printValue)] else [])
    ++ (if inp.pathValue ≠ "" then [("path", inp.pathValue)] else []))
    ++ [("filename", inp.multipartFilename), ("tmp_file_path", inp.tmpFilePath)])

/-- `FileUploadHandler.post`.  A supplied checksum that does not match the
computed digest (both lower-cased) deletes the temporary file and raises a
422 `ServerError` carrying both digests; otherwise the buffered fields go to
`finalize_upload`, whose declared failure is re-raised as an HTTP error of
the same status without touching the temporary file. -/
def uploadPost (inp : UploadInput)
    (finalize : List (String × String) → Except (Nat × String) Nat) :
    UploadResult :=
  let calcChksum := pyLower inp.sha256Hex
  if inp.checksumValue ≠ "" ∧ calcChksum ≠ pyLower inp.checksumValue then
    { outcome := .err 422 ("File checksum mismatch: expected "
        ++ pyLower inp.checksumValue ++ ", calculated " ++ calcChksum),
      tempDeleted := true, finalizeCalled := false }
  else
    match finalize (uploadFormArgs inp) with
    | .ok r => { outcome := .ok r, tempDeleted := false, finalizeCalled := true }
    | .error (code, msg) =>
      { outcome := .err code msg, tempDeleted := false, finalizeCalled := true }

/-! ## String containment helpers -/

theorem str_append_assoc (a b c : String) : a ++ b ++ c = a ++ (b ++ c) := by
  cases a with
  | mk la =>
    cases b with
    | mk lb =>
      cases c with
      | mk lc =>
        show String.mk ((la ++ lb) ++ lc) = String.mk (la ++ (lb ++ lc))
        rw [List.append_assoc]

theorem str_append_empty (a : String) : a ++ "" = a := by
  cases a with
  | mk la =>
    show String.mk (la ++ []) = String.mk la
    rw [List.append_nil]

/-- `t` occurs as a contiguous substring of `s`. -/
def strHasSub (s t : String) : Prop := ∃ x y, s = x ++ t ++ y

/-! # Claims

Each claim of the specification gets one theorem below (plus a counterexample
where the claim fails as stated, and a witness where the theorem carries
hypotheses). -/

/-! ## C2 — temporary upload file lifetime -/

/-- C2 counterexample: the claim says the temporary upload file is moved or
deleted on every exit path of `FileUploadHandler.post`, including the path
where `finalize_upload` raises a declared error.  On that path the handler
re-raises the error without deleting the temporary file: with no checksum
supplied and `finalize_upload` failing with status 400, the result shows
`tempDeleted = false` while the outcome is the re-raised error (so the file
was not moved to its destination either). -/
theorem c2_counterexample :
    uploadPost ⟨"", "abc", "", "", "", "file.gcode", "/tmp/upload-tmp"⟩
        (fun _ => .error (400, "upload failed"))
      = ⟨.err 400 "upload failed", false, true⟩ := by
  decide

/-- C2 (amended): `FileUploadHandler.post` deletes the temporary file exactly
on the checksum-mismatch path; every other path (finalize success *and*
finalize failure) hands the buffered fields with the temporary path to
`finalize_upload` without the handler deleting the file, so cleanup on a
finalize failure is left to the collaborator. -/
theorem c2_upload_temp_file (inp : UploadInput)
    (finalize : List (String × String) → Except (Nat × String) Nat) :
    (uploadPost inp finalize).tempDeleted
        = (decide (inp.checksumValue ≠ "") &&
           decide (pyLower inp.sha256Hex ≠ pyLower inp.checksumValue)) ∧
    (uploadPost inp finalize).finalizeCalled
        = !(uploadPost inp finalize).tempDeleted := by
  by_cases h1 : inp.checksumValue ≠ ""
  · by_cases h2 : pyLower inp.sha256Hex ≠ pyLower inp.checksumValue
    · simp [uploadPost, h1, h2]
    · simp only [uploadPost, h1, h2, and_false, if_false]
      cases hf : finalize (uploadFormArgs inp) with
      | ok r => simp [h1, h2]
      | error e => cases e; simp [h1, h2]
  · simp only [uploadPost, h1, false_and, if_false]
    cases hf : finalize (uploadFormArgs inp) with
    | ok r => simp [h1]
    | error e => cases e; simp [h1]

/-! ## C7 — checksum verification -/

/-- C7: when the client-supplied checksum (compared case-insensitively)
differs from the computed SHA-256 digest, `FileUploadHandler.post` deletes
the temporary file and fails with a 422 error whose message contains both the
received and the computed digest; when the checksum matches or none was
supplied, the temporary file is not deleted and `finalize_upload` is
invoked. -/
theorem c7_checksum_verification (inp : UploadInput)
    (finalize : List (String × String) → Except (Nat × String) Nat) :
    (inp.checksumValue ≠ "" →
      pyLower inp.sha256Hex ≠ pyLower inp.checksumValue →
      uploadPost inp finalize =
        ⟨.err 422 ("File checksum mismatch: expected "
            ++ pyLower inp.checksumValue
            ++ ", calculated " ++ pyLower inp.sha256Hex), true, false⟩ ∧
      strHasSub ("File checksum mismatch: expected " ++ pyLower inp.checksumValue
            ++ ", calculated " ++ pyLower inp.sha256Hex)
          (pyLower inp.checksumValue) ∧
      strHasSub ("File checksum mismatch: expected " ++ pyLower inp.checksumValue
            ++ ", calculated " ++ pyLower inp.sha256Hex)
          (pyLower inp.sha256Hex)) ∧
    ((inp.checksumValue = "" ∨ pyLower inp.sha256Hex = pyLower inp.checksumValue) →
      (uploadPost inp finalize).tempDeleted = false ∧
      (uploadPost inp finalize).finalizeCalled = true) := by
  constructor
  · intro h1 h2
    refine ⟨by simp [uploadPost, h1, h2], ?_, ?_⟩
    · refine ⟨"File checksum mismatch: expected ",
        ", calculated " ++ pyLower inp.sha256Hex, ?_⟩
      rw [str_append_assoc ("File checksum mismatch: expected "
        ++ pyLower inp.checksumValue) ", calculated " (pyLower inp.sha256Hex)]
    · refine ⟨"File checksum mismatch: expected " ++ pyLower inp.checksumValue
        ++ ", calculated ", "", ?_⟩
      rw [str_append_empty]
  · intro h
    have hcond : ¬(inp.checksumValue ≠ "" ∧
        pyLower inp.sha256Hex ≠ pyLower inp.checksumValue) := by
      rcases h with h | h
      · intro hc; exact hc.1 h
      · intro hc; exact hc.2 h
    simp only [uploadPost, hcond, if_false]
    cases hf : finalize (uploadFormArgs inp) with
    | ok r => exact ⟨rfl, rfl⟩
    | error e => cases e; exact ⟨rfl, rfl⟩

/-- Witness for C7 at concrete inputs: checksum `"ABC"` vs digest `"abd"`
mismatches (case-insensitively) and produces the deleting 422 outcome with
both digests in the message; checksum `"ABC"` vs digest `"AbC"` matches and
reaches `finalize_upload` without deleting. -/
theorem c7_witness :
    (uploadPost ⟨"ABC", "abd", "", "", "", "f.gcode", "/tmp/u"⟩ (fun _ => .ok 1)
        = ⟨.err 422 "File checksum mismatch: expected abc, calculated abd",
           true, false⟩) ∧
    ((uploadPost ⟨"ABC", "AbC", "", "", "", "f.gcode", "/tmp/u"⟩
        (fun _ => .ok 1)).tempDeleted = false ∧
     (uploadPost ⟨"ABC", "AbC", "", "", "", "f.gcode", "/tmp/u"⟩
        (fun _ => .ok 1)).finalizeCalled = true) := by
  constructor
  · have h := (c7_checksum_verification
      ⟨"ABC", "abd", "", "", "", "f.gcode", "/tmp/u"⟩ (fun _ => .ok 1)).1
      (by decide) (by decide)
    exact h.1.trans (by decide)
  · exact (c7_checksum_verification
      ⟨"ABC", "AbC", "", "", "", "f.gcode", "/tmp/u"⟩ (fun _ => .ok 1)).2
      (Or.inr (by decide))

/-! ## C5 — whole-resource ranges are served as 200 -/

/-- C5 counterexample: the claim is stated for every file size `S`, but on an
empty file (`S = 0`) the request `Range: bytes=0-` hits the
start-at-or-beyond-content-length test (`0 >= 0`) and is answered 416, not
200. -/
theorem c5_counterexample :
    parseRequestRange "bytes=0-" = some (some 0, Option.none) ∧
    fileGet 0 (some "bytes=0-")
      = ⟨416, some "bytes */0", Option.none, Option.none⟩ := by
  constructor
  · decide
  · decide

/-- C5 (amended): for every file of positive size `S`, a parsed range whose
adjusted span covers the entire resource (start absent or adjusted to 0, end
absent or at least `S` before clamping) is served as a plain 200 response
carrying the full content, not 206. -/
theorem c5_full_range_200 (size : Nat) (s0 e0 : Option Int)
    (hpos : 0 < size)
    (hs : adjustStart s0 size = Option.none ∨ adjustStart s0 size = some 0)
    (he : e0 = Option.none ∨ ∃ ev, e0 = some ev ∧ (size : Int) ≤ ev) :
    fileGetRange size (some (s0, e0)) =
      { status := 200, contentRange := Option.none,
        contentLength := some (size : Int), body := some (0, (size : Int)) } := by
  have hsize0 : ((size : Int) ≥ 1) := by exact_mod_cast hpos
  rcases he with he | ⟨ev, he, hev⟩
  · rcases hs with hs | hs
    · simp [fileGetRange, hs, he, finishRange]
    · have h1 : ¬((0 : Int) ≥ (size : Int)) := by omega
      simp [fileGetRange, hs, he, finishRange, h1]
  · have hev0 : ev ≠ 0 := by omega
    have hendv : (if ev > (size : Int) then some (size : Int) else some ev)
        = some (size : Int) := by
      by_cases hgt : ev > (size : Int)
      · simp [hgt]
      · have : ev = (size : Int) := le_antisymm (not_lt.mp hgt) hev
        simp [hgt, this]
    have hsz : ¬((size : Int) = 0) := by omega
    rcases hs with hs | hs
    · simp [fileGetRange, hs, he, hev0, hendv, finishRange, hsz]
    · have h1 : ¬((0 : Int) ≥ (size : Int)) := by omega
      have h2 : ¬((0 : Int) ≥ ev) := by omega
      simp [fileGetRange, hs, he, hev0, hendv, finishRange, h1, h2, hsz]

/-- Witness for C5 at `S = 10` with the header `bytes=0-` from the claim:
the parsed tuple is `(0, None)` and the response is a 200 with the full
10-byte body. -/
theorem c5_witness :
    parseRequestRange "bytes=0-" = some (some 0, Option.none) ∧
    fileGetRange 10 (some (some 0, Option.none))
      = ⟨200, Option.none, some 10, some (0, 10)⟩ := by
  constructor
  · decide
  · exact (c5_full_range_200 10 (some 0) Option.none (by decide)
      (Or.inr (by decide)) (Or.inl rfl)).trans (by decide)

/-! ## C6 — unsatisfiable ranges are answered 416 -/

/-- C6: a parsed range whose adjusted start is at or beyond the content
length, or whose (exclusive) end is at or before its adjusted start, or which
is the zero-length suffix `bytes=-0` (parsed as `(None, 0)`), is answered
416 with `Content-Range: bytes */S`, no Content-Length and no body. -/
theorem c6_range_not_satisfiable (size : Nat) (s0 e0 : Option Int)
    (h : (∃ sv, adjustStart s0 size = some sv ∧ (size : Int) ≤ sv) ∨
         (∃ sv ev, adjustStart s0 size = some sv ∧ e0 = some ev ∧ ev ≤ sv) ∨
         (s0 = Option.none ∧ e0 = some 0)) :
    fileGetRange size (some (s0, e0)) =
      { status := 416, contentRange := some ("bytes */" ++ toString size),
        contentLength := Option.none, body := Option.none } := by
  rcases h with ⟨sv, hadj, hle⟩ | ⟨sv, ev, hadj, he, hle⟩ | ⟨hs, he⟩
  · have : decide (sv ≥ (size : Int)) = true := by simpa using hle
    simp [fileGetRange, hadj, this]
  · have : decide (sv ≥ ev) = true := by simpa using hle
    simp [fileGetRange, hadj, he, this]
  · have : adjustStart Option.none size = Option.none := rfl
    simp [fileGetRange, hs, he, this]

/-- Witness for C6 at `S = 10`: the claim's example `bytes=10-` (start at the
content length) and the zero-length suffix `bytes=-0` both produce the 416
response with `Content-Range: bytes */10`. -/
theorem c6_witness :
    parseRequestRange "bytes=10-" = some (some 10, Option.none) ∧
    parseRequestRange "bytes=-0" = some (Option.none, some 0) ∧
    fileGetRange 10 (some (some 10, Option.none))
      = ⟨416, some "bytes */10", Option.none, Option.none⟩ ∧
    fileGetRange 10 (some (Option.none, some 0))
      = ⟨416, some "bytes */10", Option.none, Option.none⟩ := by
  refine ⟨by decide, by decide, ?_, ?_⟩
  · exact (c6_range_not_satisfiable 10 (some 10) Option.none
      (Or.inl ⟨10, by decide, by decide⟩)).trans (by decide)
  · exact (c6_range_not_satisfiable 10 Option.none (some 0)
      (Or.inr (Or.inr ⟨rfl, rfl⟩))).trans (by decide)

/-! ## C3 — deregistration and adapter removal hooks -/

theorem runRemovalHooks_all_ok (hooks : String → APIDefinition → Except Nat Unit)
    (d : APIDefinition) (ts : List String)
    (h : ∀ t ∈ ts, hooks t d = .ok ()) :
    runRemovalHooks hooks d ts = (ts, Option.none) := by
  induction ts with
  | nil => rfl
  | cons t rest ih =>
    have ht := h t (List.mem_cons_self t rest)
    have ih2 := ih (fun x hx => h x (List.mem_cons_of_mem t hx))
    simp [runRemovalHooks, ht, ih2]

theorem runRemovalHooks_first_err (hooks : String → APIDefinition → Except Nat Unit)
    (d : APIDefinition) (pre : List String) (t : String) (post : List String)
    (c : Nat) (hpre : ∀ x ∈ pre, hooks x d = .ok ())
    (ht : hooks t d = .error c) :
    runRemovalHooks hooks d (pre ++ t :: post) = (pre ++ [t], some c) := by
  induction pre with
  | nil => simp [runRemovalHooks, ht]
  | cons x rest ih =>
    have hx := hpre x (List.mem_cons_self x rest)
    have ih2 := ih (fun y hy => hpre y (List.mem_cons_of_mem x hy))
    simp [runRemovalHooks, hx, ih2]

/-- In a pattern-deduplicated rule list where the only rule carrying pattern
`p` is `r0`, erasing `r0` leaves no rule with pattern `p`. -/
theorem eraseP_no_pattern (l : List Rule) (p : String) (r0 : Rule)
    (hp0 : r0.pattern = p) (hn : (l.map Rule.pattern).Nodup)
    (huniq : ∀ r ∈ l, r.pattern = p → r = r0) :
    ∀ r ∈ l.eraseP (fun x => x == r0), r.pattern ≠ p := by
  induction l with
  | nil => intro r hr; simp [List.eraseP] at hr
  | cons a rest ih =>
    by_cases ha : a = r0
    · intro r hr hrp
      rw [List.eraseP_cons, ha] at hr
      simp only [beq_self_eq_true, if_true] at hr
      have hr0 : r = r0 :=
        huniq r (List.mem_cons_of_mem a hr) hrp
      simp only [List.map_cons, List.nodup_cons] at hn
      exact hn.1 (by
        rw [ha, hp0]
        rw [hr0, hp0] at hrp
        exact (List.mem_map.mpr ⟨r, hr, by rw [hr0, hp0]⟩))
    · intro r hr hrp
      rw [List.eraseP_cons] at hr
      have hba : (a == r0) = false := by simpa using ha
      simp only [hba, cond_false] at hr
      rcases List.mem_cons.mp hr with rfl | hr2
      · exact ha (huniq r (List.mem_cons_self r rest) hrp)
      · simp only [List.map_cons, List.nodup_cons] at hn
        exact ih hn.2
          (fun x hx hxp => huniq x (List.mem_cons_of_mem a hx) hxp)
          r hr2 hrp

theorem pyLookup_mem {β : Type} (d : List (String × β)) (k : String) (v : β)
    (h : pyLookup d k = some v) : (k, v) ∈ d := by
  induction d with
  | nil => exact Option.noConfusion h
  | cons p rest ih =>
    by_cases hp : p.1 = k
    · simp only [pyLookup, hp, if_true, Option.some.injEq] at h
      have : p = (k, v) := by
        cases p with
        | mk a b =>
          simp only at hp h
          rw [hp, h]
      rw [← this]
      exact List.mem_cons_self p rest
    · simp only [pyLookup, hp, if_false] at h
      exact List.mem_cons_of_mem p (ih h)

/-- After `MutableRouter.remove_handler` on a consistent router, the index no
longer reports the pattern and no rule carrying it remains in the rule
list. -/
theorem removeHandler_clears (rs : MRState) (p : String) (hinv : MRInv rs) :
    pyLookup (rs.removeHandler p).pattern_to_rule p = Option.none ∧
    (∀ r ∈ (rs.removeHandler p).rules, r.pattern ≠ p) := by
  cases hlp : pyLookup rs.pattern_to_rule p with
  | none =>
    constructor
    · simp [MRState.removeHandler, hlp]
    · intro r hr hrp
      have hmem : r ∈ rs.rules := by
        simpa [MRState.removeHandler, hlp] using hr
      have := hinv.2.2 r hmem
      rw [hrp, hlp] at this
      exact Option.noConfusion this
  | some r0 =>
    have hr0 := hinv.2.1 (p, r0) (pyLookup_mem _ _ _ hlp)
    have huniq : ∀ r ∈ rs.rules, r.pattern = p → r = r0 := by
      intro r hr hrp
      have := hinv.2.2 r hr
      rw [hrp, hlp] at this
      exact (Option.some.inj this).symm
    constructor
    · simp [MRState.removeHandler, hlp, pyLookup_pyDictPop_self]
    · intro r hr hrp
      have hr2 : r ∈ rs.rules.eraseP (fun x => x == r0) := by
        simpa [MRState.removeHandler, hlp] using hr
      exact eraseP_no_pattern rs.rules p r0 hr0.1 hinv.1 huniq r hr2 hrp

/-- C3 counterexample: the claim says a failing adapter removal hook is
logged, not propagated, and that the remaining adapters' hooks still run.
`remove_handler` has no exception handling around the adapter loop: with two
adapters where the first hook raises (status 3), only the first adapter is
invoked and the error propagates out of the call. -/
theorem c3_counterexample :
    (removeAppHandler
        ⟨[("e", ⟨"e", "/printer/e", ["printer.e"], ["GET", "POST"],
            ALL_TRANSPORTS, Option.none, false⟩)],
         ["/printer/e"],
         ⟨[("/printer/e", ⟨"/printer/e", 0, 0⟩)], [⟨"/printer/e", 0, 0⟩]⟩,
         ["websocket", "mqtt"]⟩
        "e"
        (fun t _ => if t = "websocket" then .error 3 else .ok ())).2
      = (["websocket"], some 3) := by
  decide

/-- C3 (amended): `MoonrakerApp.remove_handler` pops the endpoint's
APIDefinition from the api cache, removes its route rule (index entry and
rule list), then invokes the transport adapters' removal hooks in
registration order; when every hook succeeds all adapters are invoked and no
error escapes, but when a hook raises, the exception propagates out of
`remove_handler` and the hooks of the remaining adapters are not invoked. -/
theorem c3_remove_handler (s : AppState) (endpoint : String) (d : APIDefinition)
    (hooks : String → APIDefinition → Except Nat Unit)
    (hd : pyLookup s.api_cache endpoint = some d)
    (hinv : MRInv s.router) :
    pyLookup (removeAppHandler s endpoint hooks).1.api_cache endpoint
        = Option.none ∧
    pyLookup (removeAppHandler s endpoint hooks).1.router.pattern_to_rule d.uri
        = Option.none ∧
    (∀ r ∈ (removeAppHandler s endpoint hooks).1.router.rules,
        r.pattern ≠ d.uri) ∧
    ((∀ t ∈ s.transports, hooks t d = .ok ()) →
      (removeAppHandler s endpoint hooks).2 = (s.transports, Option.none)) ∧
    (∀ pre t post c, s.transports = pre ++ t :: post →
      (∀ x ∈ pre, hooks x d = .ok ()) → hooks t d = .error c →
      (removeAppHandler s endpoint hooks).2 = (pre ++ [t], some c)) := by
  have hclears := removeHandler_clears s.router d.uri hinv
  refine ⟨?_, ?_, ?_, ?_, ?_⟩
  · simp [removeAppHandler, hd, pyLookup_pyDictPop_self]
  · simpa [removeAppHandler, hd] using hclears.1
  · intro r hr
    exact hclears.2 r (by simpa [removeAppHandler, hd] using hr)
  · intro hall
    simp [removeAppHandler, hd, runRemovalHooks_all_ok hooks d s.transports hall]
  · intro pre t post c hsplit hpre ht
    simp [removeAppHandler, hd, hsplit,
      runRemovalHooks_first_err hooks d pre t post c hpre ht]

/-- Witness for C3 at a concrete registered endpoint with two adapters whose
hooks both succeed: the cache entry and route rule are gone, both adapters
are invoked and no error escapes. -/
theorem c3_witness :
    pyLookup (removeAppHandler
        ⟨[("e", ⟨"e", "/printer/e", ["printer.e"], ["GET", "POST"],
            ALL_TRANSPORTS, Option.none, false⟩)],
         ["/printer/e"],
         ⟨[("/printer/e", ⟨"/printer/e", 0, 0⟩)], [⟨"/printer/e", 0, 0⟩]⟩,
         ["websocket", "mqtt"]⟩
        "e" (fun _ _ => .ok ())).1.api_cache "e" = Option.none ∧
    (removeAppHandler
        ⟨[("e", ⟨"e", "/printer/e", ["printer.e"], ["GET", "POST"],
            ALL_TRANSPORTS, Option.none, false⟩)],
         ["/printer/e"],
         ⟨[("/printer/e", ⟨"/printer/e", 0, 0⟩)], [⟨"/printer/e", 0, 0⟩]⟩,
         ["websocket", "mqtt"]⟩
        "e" (fun _ _ => .ok ())).2 = (["websocket", "mqtt"], Option.none) := by
  have h := c3_remove_handler
    ⟨[("e", ⟨"e", "/printer/e", ["printer.e"], ["GET", "POST"],
        ALL_TRANSPORTS, Option.none, false⟩)],
     ["/printer/e"],
     ⟨[("/printer/e", ⟨"/printer/e", 0, 0⟩)], [⟨"/printer/e", 0, 0⟩]⟩,
     ["websocket", "mqtt"]⟩
    "e"
    ⟨"e", "/printer/e", ["printer.e"], ["GET", "POST"],
      ALL_TRANSPORTS, Option.none, false⟩
    (fun _ _ => .ok ()) (by decide) (by decide)
  exact ⟨h.1, h.2.2.2.1 (by intro t ht; rfl)⟩

/-! ## C10 — duplicate-uri registration -/

/-- C10 counterexample: the claim says `register_remote_handler` with a
duplicate uri still inserts a new APIDefinition into the api cache before
returning.  When the endpoint is already cached (the ordinary duplicate
case: the same endpoint registered twice), `_create_api_definition` returns
the cached definition and nothing is inserted — the whole state comes back
unchanged. -/
theorem c10_counterexample :
    ("/printer/foo" ∈ (["/printer/foo"] : List String)) ∧
    registerRemoteHandler
        ⟨[("foo", ⟨"foo", "/printer/foo", ["printer.foo"], ["GET", "POST"],
            ALL_TRANSPORTS, Option.none, false⟩)],
         ["/printer/foo"], ⟨[], []⟩, ["websocket"]⟩ "foo"
      = .ok (⟨[("foo", ⟨"foo", "/printer/foo", ["printer.foo"], ["GET", "POST"],
            ALL_TRANSPORTS, Option.none, false⟩)],
         ["/printer/foo"], ⟨[], []⟩, ["websocket"]⟩, []) := by
  exact ⟨by decide, rfl⟩

/-- C10 (amended): a `register_local_handler` call whose uri is already in
`registered_base_handlers` is a complete no-op — api cache, route table,
registered uris and adapters are untouched and no notification is sent —
whereas `register_remote_handler` with a duplicate uri still runs
`_create_api_definition` first: for a non-reserved endpoint that is not yet
in the api cache this inserts a new APIDefinition into the cache before the
duplicate-uri early return (while an already-cached endpoint leaves the cache
unchanged, as the counterexample shows). -/
theorem c10_duplicate_uri :
    (∀ (s : AppState) (uri : String) (rm : List String) (cb : Nat)
        (tr : List String),
       uri ∈ s.registered_base_handlers →
       registerLocalHandler s uri rm cb tr = .ok (s, [])) ∧
    (∀ (s : AppState) (endpoint : String),
       endpoint ∉ RESERVED_ENDPOINTS →
       pyLookup s.api_cache endpoint = Option.none →
       (if strStartsWith endpoint "/" then endpoint
        else "/printer/" ++ endpoint) ∈ s.registered_base_handlers →
       registerRemoteHandler s endpoint =
         .ok ({ s with api_cache := s.api_cache ++
             [(endpoint,
               ⟨endpoint,
                (if strStartsWith endpoint "/" then endpoint
                 else "/printer/" ++ endpoint),
                [pyReplaceChar (strDrop1
                   (if strStartsWith endpoint "/" then endpoint
                    else "/printer/" ++ endpoint)) '/' '.'],
                ["GET", "POST"], ALL_TRANSPORTS, Option.none,
                strStartsWith endpoint "objects/"⟩)] }, [])) := by
  constructor
  · intro s uri rm cb tr h
    simp [registerLocalHandler, h]
  · intro s endpoint h1 h2 h3
    by_cases hsw : strStartsWith endpoint "/" = true
    · simp only [hsw, if_true] at h3 ⊢
      simp [registerRemoteHandler, createAPIDefinition, h1, h2, h3, hsw]
    · simp only [Bool.not_eq_true] at hsw
      simp only [hsw, Bool.false_eq_true, if_false] at h3 ⊢
      simp [registerRemoteHandler, createAPIDefinition, h1, h2, h3, hsw]

/-- Witness for C10: a local registration whose uri is already registered
returns the state unchanged with no notification, and a remote registration
whose uri is registered but whose endpoint is uncached still inserts the new
APIDefinition into the api cache. -/
theorem c10_witness :
    registerLocalHandler
        ⟨[], ["/server/info"], ⟨[], []⟩, ["websocket"]⟩
        "/server/info" ["GET"] 7 ALL_TRANSPORTS
      = .ok (⟨[], ["/server/info"], ⟨[], []⟩, ["websocket"]⟩, []) ∧
    registerRemoteHandler
        ⟨[], ["/printer/foo"], ⟨[], []⟩, ["websocket"]⟩ "foo"
      = .ok (⟨[("foo", ⟨"foo", "/printer/foo", ["printer.foo"],
            ["GET", "POST"], ALL_TRANSPORTS, Option.none, false⟩)],
         ["/printer/foo"], ⟨[], []⟩, ["websocket"]⟩, []) := by
  constructor
  · exact c10_duplicate_uri.1
      ⟨[], ["/server/info"], ⟨[], []⟩, ["websocket"]⟩
      "/server/info" ["GET"] 7 ALL_TRANSPORTS (by decide)
  · exact (c10_duplicate_uri.2
      ⟨[], ["/printer/foo"], ⟨[], []⟩, ["websocket"]⟩ "foo"
      (by decide) (by decide) (by decide)).trans rfl

/-! ## C8 — type-hinted query arguments -/

theorem data_append_colon (name hint : String) :
    (name ++ ":" ++ hint).data = name.data ++ ':' :: hint.data := by
  rw [string_data_append, string_data_append, List.append_assoc]
  rfl

theorem rsplitColon_snd_none (s : String)
    (h : (rsplitColon s).2 = Option.none) : (rsplitColon s).1 = s := by
  unfold rsplitColon at h ⊢
  rcases hb : breakAtColonRev s.data.reverse with ⟨suf, r⟩
  cases r with
  | none => simp [hb]
  | some pre => simp [hb] at h

theorem excluded_no_colon (k : String) (hk : k ∈ EXCLUDED_ARGS) :
    ∀ c ∈ k.data, c ≠ ':' := by
  simp only [EXCLUDED_ARGS, List.mem_cons, List.not_mem_nil, or_false] at hk
  rcases hk with rfl | rfl | rfl | rfl <;> decide

theorem key_colon_not_excluded (name hint : String) :
    (name ++ ":" ++ hint) ∉ EXCLUDED_ARGS := by
  intro hmem
  have hc : ':' ∈ (name ++ ":" ++ hint).data := by
    rw [data_append_colon]
    exact List.mem_append.mpr (Or.inr (List.mem_cons_self ':' hint.data))
  exact excluded_no_colon _ hmem ':' hc rfl

theorem typeFuncs_cases (hint : String) (f : String → Option PyVal)
    (hf : typeFuncs hint = some f) :
    hint = "int" ∨ hint = "float" ∨ hint = "bool" ∨ hint = "json" := by
  by_cases h1 : hint = "int"
  · exact Or.inl h1
  by_cases h2 : hint = "float"
  · exact Or.inr (Or.inl h2)
  by_cases h3 : hint = "bool"
  · exact Or.inr (Or.inr (Or.inl h3))
  by_cases h4 : hint = "json"
  · exact Or.inr (Or.inr (Or.inr h4))
  exfalso
  have : typeFuncs hint = Option.none := by
    unfold typeFuncs
    split
    · exact absurd rfl h1
    · exact absurd rfl h2
    · exact absurd rfl h3
    · exact absurd rfl h4
    · rfl
  rw [this] at hf
  exact Option.noConfusion hf

/-- C8: every query key of the form `name:hint` with a recognised hint is
converted by that hint's converter — the parsed mapping binds `name` to
`_convert_type`'s result, which is the converter's value when it succeeds and
the original (stripped) string when the converter rejects the value; no
exception escapes (the parser is total). -/
theorem c8_hint_conversion (name value hint : String)
    (f : String → Option PyVal) (hf : typeFuncs hint = some f) :
    defaultParser [(name ++ ":" ++ hint, value)]
        = [(name, convertType (pyStrip value) hint)] ∧
    (∀ v, f (pyStrip value) = some v → convertType (pyStrip value) hint = v) ∧
    (f (pyStrip value) = Option.none →
      convertType (pyStrip value) hint = .str (pyStrip value)) := by
  have hnc : ∀ c ∈ hint.data, c ≠ ':' := by
    rcases typeFuncs_cases hint f hf with rfl | rfl | rfl | rfl <;> decide
  have hsplit := rsplitColon_append name hint hnc
  have hnex := key_colon_not_excluded name hint
  refine ⟨?_, ?_, ?_⟩
  · simp [defaultParser, defaultParserStep, hnex, hsplit, pyDictSet, pyLookup]
  · intro v hv
    simp [convertType, hf, hv]
  · intro hv
    simp [convertType, hf, hv]

/-- Witness for C8 at the claim's examples: `count:int=5` resolves to the
integer 5 and `count:int=abc` resolves to the string `"abc"`. -/
theorem c8_witness :
    defaultParser [("count:int", "5")] = [("count", PyVal.int 5)] ∧
    defaultParser [("count:int", "abc")] = [("count", PyVal.str "abc")] := by
  constructor
  · exact ((c8_hint_conversion "count" "5" "int"
      (fun v => (pyInt v).map .int) rfl).1).trans rfl
  · exact ((c8_hint_conversion "count" "abc" "int"
      (fun v => (pyInt v).map .int) rfl).1).trans rfl

/-! ## C9 — object-mode parsing -/

theorem foldl_objectStep_excluded (l : List (String × String))
    (acc : List (String × PyVal)) (k : String) (hk : k ∈ EXCLUDED_ARGS)
    (hacc : pyLookup acc k = Option.none) :
    pyLookup (l.foldl objectParserStep acc) k = Option.none := by
  induction l generalizing acc with
  | nil => exact hacc
  | cons kv rest ih =>
    rw [List.foldl_cons]
    apply ih
    unfold objectParserStep
    by_cases he : kv.1 ∈ EXCLUDED_ARGS
    · simp [he, hacc]
    · have hne : k ≠ kv.1 := by
        intro h
        rw [h] at hk
        exact he hk
      by_cases hv : pyStrip kv.2 = ""
      · simp [he, hv, pyLookup_pyDictSet_ne _ _ _ _ hne, hacc]
      · simp [he, hv, pyLookup_pyDictSet_ne _ _ _ _ hne, hacc]

theorem foldl_objectStep_skip (l : List (String × String))
    (acc : List (String × PyVal)) (k : String)
    (hl : ∀ p ∈ l, p.1 ≠ k) :
    pyLookup (l.foldl objectParserStep acc) k = pyLookup acc k := by
  induction l generalizing acc with
  | nil => rfl
  | cons kv rest ih =>
    rw [List.foldl_cons,
      ih _ (fun p hp => hl p (List.mem_cons_of_mem kv hp))]
    have hne : k ≠ kv.1 := Ne.symm (hl kv (List.mem_cons_self kv rest))
    unfold objectParserStep
    by_cases he : kv.1 ∈ EXCLUDED_ARGS
    · simp [he]
    · by_cases hv : pyStrip kv.2 = ""
      · simp [he, hv, pyLookup_pyDictSet_ne _ _ _ _ hne]
      · simp [he, hv, pyLookup_pyDictSet_ne _ _ _ _ hne]

theorem foldl_objectStep_mem (l : List (String × String))
    (acc : List (String × PyVal)) (kv : String × String)
    (hkv : kv ∈ l) (hnd : (l.map Prod.fst).Nodup)
    (hne : kv.1 ∉ EXCLUDED_ARGS) :
    pyLookup (l.foldl objectParserStep acc) kv.1
      = some (if pyStrip kv.2 = "" then PyVal.none
          else PyVal.list ((pySplitChar (pyStrip kv.2) ',').map PyVal.str)) := by
  induction l generalizing acc with
  | nil => exact absurd hkv (List.not_mem_nil kv)
  | cons a rest ih =>
    simp only [List.map_cons, List.nodup_cons] at hnd
    rcases List.mem_cons.mp hkv with rfl | hmem
    · rw [List.foldl_cons]
      have hrest : ∀ p ∈ rest, p.1 ≠ kv.1 := by
        intro p hp h
        exact hnd.1 (h ▸ List.mem_map.mpr ⟨p, hp, rfl⟩)
      rw [foldl_objectStep_skip rest _ kv.1 hrest]
      unfold objectParserStep
      by_cases hv : pyStrip kv.2 = ""
      · simp [hne, hv, pyLookup_pyDictSet_self]
      · simp [hne, hv, pyLookup_pyDictSet_self]
    · rw [List.foldl_cons]
      exact ih _ hmem hnd.2

/-- C9: in object mode every non-excluded key's (stripped) value is split on
commas into a list of strings when non-empty and mapped to the `None`
sentinel (standing for the empty field list) when empty; excluded keys are
dropped, and the whole mapping is nested under the single key `"objects"`. -/
theorem c9_object_mode (args : List (String × String))
    (hnd : (args.map Prod.fst).Nodup) :
    ∃ inner, objectParser args = [("objects", PyVal.dict inner)] ∧
      (∀ kv ∈ args, kv.1 ∉ EXCLUDED_ARGS →
        pyLookup inner kv.1 = some (if pyStrip kv.2 = "" then PyVal.none
          else PyVal.list ((pySplitChar (pyStrip kv.2) ',').map PyVal.str))) ∧
      (∀ k ∈ EXCLUDED_ARGS, pyLookup inner k = Option.none) := by
  refine ⟨args.foldl objectParserStep [], rfl, ?_, ?_⟩
  · intro kv hkv hne
    exact foldl_objectStep_mem args [] kv hkv hnd hne
  · intro k hk
    exact foldl_objectStep_excluded args [] k hk rfl

/-- Witness for C9 at a concrete three-key object query: a comma list splits,
an empty value becomes the `None` sentinel, a reserved key is dropped and the
result sits under the single key `"objects"`. -/
theorem c9_witness :
    ∃ inner,
      objectParser [("extruder", "target,temperature"), ("gcode_move", ""),
          ("token", "x")]
        = [("objects", PyVal.dict inner)] ∧
      pyLookup inner "extruder"
        = some (PyVal.list [PyVal.str "target", PyVal.str "temperature"]) ∧
      pyLookup inner "gcode_move" = some PyVal.none ∧
      pyLookup inner "token" = Option.none := by
  obtain ⟨inner, heq, hmem, hexc⟩ := c9_object_mode
    [("extruder", "target,temperature"), ("gcode_move", ""), ("token", "x")]
    (by decide)
  refine ⟨inner, heq, ?_, ?_, hexc "token" (by decide)⟩
  · exact hmem ("extruder", "target,temperature") (by decide) (by decide)
  · exact hmem ("gcode_move", "") (by decide) (by decide)

/-! ## C1 — reserved keys in the resolved argument mapping -/

/-- C1 counterexample: the claim says the reserved keys never appear in the
mapping `parse_args` produces, whether they arrive as query arguments, JSON
body keys or path parameters.  The exclusion list is only consulted for query
keys: under content type `application/json` both the object body
`{"token": 1}` and the key/value-pair array body `[["token", 1]]` (accepted
by `dict.update`) put `token` straight into the resolved mapping. -/
theorem c1_counterexample :
    "token" ∈ EXCLUDED_ARGS ∧
    (parseArgs false [] (some "application/json")
        "\x7b\"token\": 1\x7d" []).toOption.map (List.map Prod.fst)
      = some [PyKey.str "token"] ∧
    (parseArgs false [] (some "application/json")
        "[[\"token\", 1]]" []).toOption.map (List.map Prod.fst)
      = some [PyKey.str "token"] := by
  exact ⟨by decide, by decide, by decide⟩

/-! Helper lemmas about string-keyed lookups in heterogeneous dicts. -/

theorem pyKeyEq_str_iff (pk : PyKey) (k : String) :
    pyKeyEq pk (.str k) = true ↔ pk = .str k := by
  cases pk with
  | str s => simp [pyKeyEq]
  | int n => simp [pyKeyEq, pyKeyNum]
  | float f => cases f <;> simp [pyKeyEq, pyKeyNum]
  | bool b => simp [pyKeyEq, pyKeyNum]
  | none => simp [pyKeyEq, pyKeyNum]

theorem pyKeyEq_str_false_of_ne (pk : PyKey) (k : String)
    (h : pk ≠ .str k) : pyKeyEq pk (.str k) = false := by
  cases he : pyKeyEq pk (.str k) with
  | false => rfl
  | true => exact absurd ((pyKeyEq_str_iff pk k).mp he) h

theorem pyObjLookup_mapReplace_none (d : List (PyKey × PyVal))
    (c : PyKey → Bool) (v : PyVal) (q : PyKey)
    (hd : pyObjLookup d q = Option.none) :
    pyObjLookup (d.map (fun p => if c p.1 then (p.1, v) else p)) q
      = Option.none := by
  induction d with
  | nil => rfl
  | cons p rest ih =>
    by_cases hpq : pyKeyEq p.1 q = true
    · simp [pyObjLookup, hpq] at hd
    · have hd2 : pyObjLookup rest q = Option.none := by
        simpa [pyObjLookup, hpq] using hd
      simp only [List.map_cons]
      by_cases hcp : c p.1 = true
      · simp only [hcp, if_true]
        simp [pyObjLookup, hpq, ih hd2]
      · simp only [Bool.not_eq_true] at hcp
        simp only [hcp, Bool.false_eq_true, if_false]
        simp [pyObjLookup, hpq, ih hd2]

theorem pyObjLookup_append_none (d e : List (PyKey × PyVal)) (q : PyKey)
    (hd : pyObjLookup d q = Option.none) :
    pyObjLookup (d ++ e) q = pyObjLookup e q := by
  induction d with
  | nil => rfl
  | cons p rest ih =>
    by_cases hpq : pyKeyEq p.1 q = true
    · simp [pyObjLookup, hpq] at hd
    · have hd2 : pyObjLookup rest q = Option.none := by
        simpa [pyObjLookup, hpq] using hd
      simp only [List.cons_append, pyObjLookup, hpq, Bool.false_eq_true,
        if_false]
      exact ih hd2

theorem pyObjLookup_set_none (d : List (PyKey × PyVal)) (pk : PyKey)
    (v : PyVal) (q : PyKey) (hins : pyKeyEq pk q = false)
    (hd : pyObjLookup d q = Option.none) :
    pyObjLookup (pyObjSet d pk v) q = Option.none := by
  unfold pyObjSet
  cases hc : d.any (fun p => pyKeyEq p.1 pk) with
  | true =>
    simp only [hc, if_true]
    exact pyObjLookup_mapReplace_none d (fun x => pyKeyEq x pk) v q hd
  | false =>
    simp only [hc, Bool.false_eq_true, if_false]
    rw [pyObjLookup_append_none d _ q hd]
    simp [pyObjLookup, hins]

theorem pyObjOfStr_none (l : List (String × PyVal)) (k : String)
    (hl : pyLookup l k = Option.none) :
    pyObjLookup (pyObjOfStr l) (.str k) = Option.none := by
  induction l with
  | nil => rfl
  | cons p rest ih =>
    by_cases hp : p.1 = k
    · simp [pyLookup, hp] at hl
    · have h2 : pyLookup rest k = Option.none := by
        simpa [pyLookup, hp] using hl
      have hne : pyKeyEq (.str p.1) (.str k) = false :=
        pyKeyEq_str_false_of_ne _ k (by simp [hp])
      simp only [pyObjOfStr, List.map_cons]
      simp only [pyObjLookup, hne, Bool.false_eq_true, if_false]
      exact ih h2

theorem foldl_defaultStep_none (l : List (String × String))
    (acc : List (String × PyVal)) (k : String)
    (hq : ∀ p ∈ l, p.1 ∉ EXCLUDED_ARGS → (rsplitColon p.1).1 ≠ k)
    (hacc : pyLookup acc k = Option.none) :
    pyLookup (l.foldl defaultParserStep acc) k = Option.none := by
  induction l generalizing acc with
  | nil => exact hacc
  | cons kv rest ih =>
    rw [List.foldl_cons]
    refine ih _ (fun p hp => hq p (List.mem_cons_of_mem kv hp)) ?_
    unfold defaultParserStep
    by_cases he : kv.1 ∈ EXCLUDED_ARGS
    · simp [he, hacc]
    · have hname := hq kv (List.mem_cons_self kv rest) he
      rcases hrs : rsplitColon kv.1 with ⟨n, tl⟩
      cases tl with
      | none =>
        have hfst : kv.1 = n := by
          have := rsplitColon_snd_none kv.1 (by rw [hrs])
          rw [hrs] at this
          exact this.symm
        have hne : k ≠ kv.1 := by
          rw [hrs] at hname
          rw [hfst]
          exact Ne.symm hname
        simp [he, hrs, pyLookup_pyDictSet_ne _ _ _ _ hne, hacc]
      | some hint =>
        have hne : k ≠ n := by
          rw [hrs] at hname
          exact Ne.symm hname
        simp [he, hrs, pyLookup_pyDictSet_ne _ _ _ _ hne, hacc]

theorem foldl_jsonMerge_none (d : List (String × PyVal))
    (acc : List (PyKey × PyVal)) (k : String)
    (hd : ∀ p ∈ d, p.1 ≠ k)
    (hacc : pyObjLookup acc (.str k) = Option.none) :
    pyObjLookup (d.foldl jsonMergeStep acc) (.str k) = Option.none := by
  induction d generalizing acc with
  | nil => exact hacc
  | cons p rest ih =>
    rw [List.foldl_cons]
    refine ih _ (fun q hq => hd q (List.mem_cons_of_mem p hq)) ?_
    have hne : pyKeyEq (.str p.1) (.str k) = false :=
      pyKeyEq_str_false_of_ne _ k
        (by simp [hd p (List.mem_cons_self p rest)])
    exact pyObjLookup_set_none acc _ _ _ hne hacc

theorem foldl_path_none (pk : List (String × Option String))
    (acc : List (PyKey × PyVal)) (k : String)
    (hp : ∀ p ∈ pk, p.1 ≠ k)
    (hacc : pyObjLookup acc (.str k) = Option.none) :
    pyObjLookup (pk.foldl pathKwargStep acc) (.str k) = Option.none := by
  induction pk generalizing acc with
  | nil => exact hacc
  | cons p rest ih =>
    rw [List.foldl_cons]
    refine ih _ (fun q hq => hp q (List.mem_cons_of_mem p hq)) ?_
    have hne : pyKeyEq (.str p.1) (.str k) = false :=
      pyKeyEq_str_false_of_ne _ k
        (by simp [hp p (List.mem_cons_self p rest)])
    cases hv : p.2 with
    | none => simpa [pathKwargStep, hv] using hacc
    | some v =>
      simp only [pathKwargStep, hv]
      exact pyObjLookup_set_none acc _ _ _ hne hacc

theorem updListFold_none (xs : List PyVal) (acc : List (PyKey × PyVal))
    (k : String)
    (hxs : ∀ e ∈ xs, ∀ pk pv, elemToPair e = .ok (pk, pv) →
      pk ≠ PyKey.str k)
    (hacc : pyObjLookup acc (.str k) = Option.none) :
    ∀ out, updListFold xs acc = .ok out →
      pyObjLookup out (.str k) = Option.none := by
  induction xs generalizing acc with
  | nil =>
    intro out hout
    simp only [updListFold, Except.ok.injEq] at hout
    rw [← hout]
    exact hacc
  | cons e rest ih =>
    intro out hout
    cases hep : elemToPair e with
    | error u => simp [updListFold, hep] at hout
    | ok pv =>
      simp only [updListFold, hep] at hout
      have hne : pyKeyEq pv.1 (.str k) = false :=
        pyKeyEq_str_false_of_ne pv.1 k
          (hxs e (List.mem_cons_self e rest) pv.1 pv.2 (by rw [hep]))
      exact ih _ (fun x hx => hxs x (List.mem_cons_of_mem e hx))
        (pyObjLookup_set_none acc pv.1 pv.2 _ hne hacc) out hout

/-- C1 (amended): a reserved key arriving as an exact query-argument key is
always excluded; however the exclusion list is not consulted for the name
part of a type-hinted query key, for the keys `dict.update` inserts from a
JSON body (an object's keys, or the pairs of a key/value sequence), or for
path-captured parameters.  Whenever none of those sources resolves to a
reserved name, no reserved key appears in the mapping `parse_args`
returns. -/
theorem c1_reserved_keys (objMode : Bool) (qargs : List (String × String))
    (ct : Option String) (body : String) (pk : List (String × Option String))
    (k : String) (hk : k ∈ EXCLUDED_ARGS)
    (hq : ∀ p ∈ qargs, p.1 ∉ EXCLUDED_ARGS → (rsplitColon p.1).1 ≠ k)
    (hb : ∀ d, jsonLoads body = some (.dict d) → ∀ p ∈ d, p.1 ≠ k)
    (hbl : ∀ xs, jsonLoads body = some (.list xs) →
      ∀ e ∈ xs, ∀ pkey pv, elemToPair e = .ok (pkey, pv) →
        pkey ≠ PyKey.str k)
    (hp : ∀ p ∈ pk, p.1 ≠ k)
    (out : List (PyKey × PyVal))
    (hout : parseArgs objMode qargs ct body pk = .ok out) :
    pyObjLookup out (.str k) = Option.none := by
  have hkobj : k ≠ "objects" := by
    simp only [EXCLUDED_ARGS, List.mem_cons, List.not_mem_nil, or_false] at hk
    rcases hk with rfl | rfl | rfl | rfl <;> decide
  have hq0 : pyObjLookup (pyObjOfStr (if objMode then objectParser qargs
      else defaultParser qargs)) (.str k) = Option.none := by
    apply pyObjOfStr_none
    cases objMode with
    | false =>
      simp only [Bool.false_eq_true, if_false]
      exact foldl_defaultStep_none qargs [] k hq rfl
    | true =>
      simp only [if_true]
      simp [objectParser, pyLookup, Ne.symm hkobj]
  by_cases hj : strStartsWith (pyStrip (ct.getD "")) "application/json" = true
  · cases hl : jsonLoads body with
    | none =>
      simp only [parseArgs, hj, hl, if_true] at hout
      simp only [Except.ok.injEq] at hout
      rw [← hout]
      exact foldl_path_none pk _ k hp hq0
    | some v =>
      cases v with
      | dict d =>
        simp only [parseArgs, hj, hl, pyDictUpdate, if_true] at hout
        simp only [Except.ok.injEq] at hout
        rw [← hout]
        exact foldl_path_none pk _ k hp
          (foldl_jsonMerge_none d _ k (hb d hl) hq0)
      | list xs =>
        simp only [parseArgs, hj, hl, pyDictUpdate, if_true] at hout
        cases hu : updListFold xs (pyObjOfStr (if objMode
            then objectParser qargs else defaultParser qargs)) with
        | error u =>
          rw [hu] at hout
          exact absurd hout (by simp)
        | ok mid =>
          rw [hu] at hout
          simp only [Except.ok.injEq] at hout
          rw [← hout]
          exact foldl_path_none pk _ k hp
            (updListFold_none xs _ k (hbl xs hl) hq0 mid hu)
      | str s =>
        by_cases hs : s = ""
        · simp only [parseArgs, hj, hl, pyDictUpdate, hs, if_true,
            Except.ok.injEq] at hout
          rw [← hout]
          exact foldl_path_none pk _ k hp hq0
        · simp [parseArgs, hj, hl, pyDictUpdate, hs] at hout
      | int n => simp [parseArgs, hj, hl, pyDictUpdate] at hout
      | float f => simp [parseArgs, hj, hl, pyDictUpdate] at hout
      | bool b => simp [parseArgs, hj, hl, pyDictUpdate] at hout
      | none => simp [parseArgs, hj, hl, pyDictUpdate] at hout
  · simp only [parseArgs, hj, Bool.false_eq_true, if_false] at hout
    simp only [Except.ok.injEq] at hout
    rw [← hout]
    exact foldl_path_none pk _ k hp hq0

/-- Witness for C1 at a concrete request: the exact query key `token` is
dropped while `count:int` survives as `count`, and the reserved key is absent
from the resolved mapping. -/
theorem c1_witness :
    parseArgs false [("token", "secret"), ("count:int", "5")]
        Option.none "" []
      = .ok [(PyKey.str "count", PyVal.int 5)] ∧
    pyObjLookup [(PyKey.str "count", PyVal.int 5)] (.str "token")
      = Option.none := by
  refine ⟨rfl, ?_⟩
  exact c1_reserved_keys false [("token", "secret"), ("count:int", "5")]
    Option.none "" [] "token" (by decide) (by decide)
    (fun d hd => Option.noConfusion hd)
    (fun xs hxs => Option.noConfusion hxs)
    (fun p hp => absurd hp (List.not_mem_nil p))
    [(PyKey.str "count", PyVal.int 5)] rfl

/-! ## C4 — last-registration-wins route table -/

/-- Shape of the router state after one `add_handler`: the new rule sits at
the end, everything before it carries a different pattern (any previous rule
with the pattern was removed first), and the index maps the pattern to the
new rule. -/
theorem addHandler_shape (s : MRState) (hinv : MRInv s) (p : String)
    (t pr : Nat) :
    ∃ base, (s.addHandler p t pr).rules = base ++ [⟨p, t, pr⟩] ∧
      (∀ r ∈ base, r.pattern ≠ p) ∧
      base.Sublist s.rules ∧
      pyLookup (s.addHandler p t pr).pattern_to_rule p = some ⟨p, t, pr⟩ := by
  cases hlp : pyLookup s.pattern_to_rule p with
  | none =>
    refine ⟨s.rules, ?_, ?_, List.Sublist.refl s.rules, ?_⟩
    · simp [MRState.addHandler, hlp]
    · intro r hr hrp
      have := hinv.2.2 r hr
      rw [hrp, hlp] at this
      exact Option.noConfusion this
    · simp [MRState.addHandler, hlp, pyLookup_pyDictSet_self]
  | some r0 =>
    have hclears := removeHandler_clears s p hinv
    refine ⟨(s.removeHandler p).rules, ?_, hclears.2, ?_, ?_⟩
    · simp [MRState.addHandler, hlp, MRState.removeHandler]
    · have : (s.removeHandler p).rules = s.rules.eraseP (fun x => x == r0) := by
        simp [MRState.removeHandler, hlp]
      rw [this]
      exact List.eraseP_sublist s.rules
    · simp [MRState.addHandler, hlp, pyLookup_pyDictSet_self]

/-- C4: two successive `add_handler` calls with the same pattern leave
exactly one rule for that pattern in the rule list — the one carrying the
second call's target — every lookup matching the pattern resolves to that
second rule, and the final rule list has no duplicate patterns. -/
theorem c4_last_registration_wins (s : MRState) (hinv : MRInv s)
    (p : String) (t1 pr1 t2 pr2 : Nat) :
    (((s.addHandler p t1 pr1).addHandler p t2 pr2).rules.filter
        (fun r => r.pattern == p)) = [⟨p, t2, pr2⟩] ∧
    ((s.addHandler p t1 pr1).addHandler p t2 pr2).findRule p
        = some ⟨p, t2, pr2⟩ ∧
    ((((s.addHandler p t1 pr1).addHandler p t2 pr2).rules.map
        Rule.pattern).Nodup) := by
  obtain ⟨base, hrules, hnp, hsub, hlook⟩ := addHandler_shape s hinv p t1 pr1
  generalize hs1 : s.addHandler p t1 pr1 = s1 at hrules hlook ⊢
  have herase : s1.rules.eraseP (fun x => x == (⟨p, t1, pr1⟩ : Rule))
      = base := by
    rw [hrules]
    rw [List.eraseP_append_right [(⟨p, t1, pr1⟩ : Rule)] ?hb]
    · simp [List.eraseP]
    · intro b hb
      simp only [beq_iff_eq]
      intro hbe
      exact hnp b hb (by rw [hbe])
  have hrules2 : (s1.addHandler p t2 pr2).rules
      = base ++ [(⟨p, t2, pr2⟩ : Rule)] := by
    simp only [MRState.addHandler, MRState.removeHandler, hlook,
      Option.isSome_some, if_true]
    rw [herase]
  refine ⟨?_, ?_, ?_⟩
  · rw [hrules2, List.filter_append]
    have h1 : base.filter (fun r => r.pattern == p) = [] := by
      apply List.filter_eq_nil_iff.mpr
      intro r hr
      simp only [beq_iff_eq]
      exact hnp r hr
    rw [h1]
    simp [List.filter]
  · unfold MRState.findRule
    rw [hrules2, List.find?_append]
    have h1 : base.find? (fun r => r.pattern == p) = Option.none := by
      apply List.find?_eq_none.mpr
      intro r hr
      simp only [beq_iff_eq]
      exact hnp r hr
    rw [h1]
    simp [List.find?]
  · rw [hrules2, List.map_append]
    simp only [List.map_cons, List.map_nil]
    rw [List.nodup_append]
    refine ⟨(hsub.map Rule.pattern).nodup hinv.1, List.nodup_singleton p, ?_⟩
    intro x hx hx1
    simp only [List.mem_singleton] at hx1
    obtain ⟨r, hr, hrp⟩ := List.mem_map.mp hx
    exact hnp r hr (by rw [hrp, hx1])

/-- Witness for C4 on the empty router: registering `/server/info` twice
leaves one rule for the pattern, the lookup resolves to the second target,
and the pattern list stays duplicate-free. -/
theorem c4_witness :
    ((((⟨[], []⟩ : MRState).addHandler "/server/info" 1 0).addHandler
        "/server/info" 2 0).rules.filter
        (fun r => r.pattern == "/server/info")) = [⟨"/server/info", 2, 0⟩] ∧
    (((⟨[], []⟩ : MRState).addHandler "/server/info" 1 0).addHandler
        "/server/info" 2 0).findRule "/server/info"
      = some ⟨"/server/info", 2, 0⟩ := by
  have h := c4_last_registration_wins ⟨[], []⟩ (by decide) "/server/info" 1 0 2 0
  exact ⟨h.1, h.2.1⟩

end Moonraker
